import Mathlib

/-!
# Verification of the tax_scraper core engine

A shallow embedding of `src/scraper/scrape_ids.py` (together with the
configuration constants of `src/scraper/config.py`), and proofs about it.

Modelling conventions:
* Python exceptions are modelled with `Except String`: a raised exception is
  an `Except.error` value carrying `str(e)`.
* The network behaviour seen by `scrape_id_async` for one identifier is a
  function `Nat → AttemptBeh` giving, for each `retry_count` value, either an
  exception raised during that attempt (transport error) or a response with a
  status code and an HTML document.
* HTML documents are modelled at exactly the granularity the extractor reads
  them: the optional total-due cell text, and the optional payment-history
  table as a list of rows, each row a list of cells, each cell carrying its
  text and the text of an optional hyperlink.
* `asyncio.gather` returns its results in submission order; this fact of the
  asyncio runtime is part of the embedded semantics (`List.mapM`).
* The cooperative scheduler is modelled by the sequential schedule: the
  workers launched by `scrape_all_ids` run one after the other.  This is one
  legal interleaving of the single-threaded cooperative runtime (the spec
  guarantees no cross-worker ordering).
* File writes are modelled as pure state: the results store is a list of
  rows, the failure store an optional list of identifiers.
-/

namespace TaxScraper

/-! ## Configuration (src/scraper/config.py) -/

def MAX_RETRIES : Nat := 3
def NUM_WORKERS : Nat := 5
def BATCH_SIZE : Nat := 3
def CHECKPOINT_SIZE : Nat := 100

/-! ## Basic data model -/

/-- Python `str.strip()`: remove leading and trailing whitespace. -/
def pyStrip (s : String) : String :=
  String.mk ((((s.data.dropWhile Char.isWhitespace).reverse).dropWhile
    Char.isWhitespace).reverse)

/-- Python `str.startswith(pre)`. -/
def pyStartsWith (s pre : String) : Bool :=
  pre.data.isPrefixOf s.data

/-- Python `needle in hay` on strings (substring containment). -/
def isInfixChars (pat : List Char) : List Char → Bool
  | [] => pat.isEmpty
  | c :: t => pat.isPrefixOf (c :: t) || isInfixChars pat t

def strContains (hay needle : String) : Bool :=
  isInfixChars needle.data hay.data

/-- One cell (`td`) of the payment-history table: its text content and the
text of the hyperlink `find("a")` inside it, when one exists. -/
structure Cell where
  text : String
  link : Option String
deriving DecidableEq

/-- An HTML document, at the granularity `scrape_id_async` reads it:
`totalDueCell` is the text of `soup.find("td", id="dnn_ctr368_View_tdPMTotalDue")`
when that cell exists, and `paymentTable` is the row list
(`find_all("tr")`, each row with its `find_all("td")` cell list) of
`soup.find("table", {"id": "tblPaymentHistoryData"})` when the table exists. -/
structure Html where
  totalDueCell : Option String
  paymentTable : Option (List (List Cell))
deriving DecidableEq

/-- One row appended to `payment_history`:
`[tax_year, transaction_date, effective_date, payment_amount, receipt_number]`. -/
structure PaymentRecord where
  taxYear : String
  transactionDate : String
  effectiveDate : String
  paymentAmount : String
  receiptNumber : String
deriving DecidableEq

/-- The `payment_history` value: either the accumulated row list, or the
Python string `"Could not find payment history table"` (the table-absent
sentinel). -/
inductive PyHist where
  | rows (records : List PaymentRecord)
  | notFound
deriving DecidableEq

/-- The second component of the pair returned by `scrape_id_async`: either a
Python string (every failure message) or the success dict
`{'total_due': ..., 'payment_history': ...}`. -/
inductive PyResult where
  | str (s : String)
  | dict (total_due : String) (payment_history : PyHist)
deriving DecidableEq

/-- The worker's failure classification (line 100):
`isinstance(result, str) and result.startswith(("Error", "Failed"))`. -/
def isFailureResult : PyResult → Bool
  | .str s => pyStartsWith s "Error" || pyStartsWith s "Failed"
  | .dict _ _ => false

/-! ## Field extraction (body of scrape_id_async, lines 38-57) -/

/-- Reading `cells[0]` .. `cells[4]` of one data row; a row with fewer than
five cells raises `IndexError` (`"list index out of range"`). -/
def extractRecord (cells : List Cell) : Except String PaymentRecord :=
  match cells with
  | c0 :: c1 :: c2 :: c3 :: c4 :: _ =>
    .ok { taxYear := pyStrip c0.text
          transactionDate := pyStrip c1.text
          effectiveDate := pyStrip c2.text
          paymentAmount := pyStrip c3.text
          receiptNumber :=
            match c4.link with
            | some t => pyStrip t
            | none => pyStrip c4.text }
  | _ => .error "list index out of range"

/-- The `for row in data_rows` loop: rows whose `find_all("td")` is empty are
skipped (`if cells:`); any malformed row aborts with its exception. -/
def extractRows : List (List Cell) → Except String (List PaymentRecord)
  | [] => .ok []
  | cells :: rest =>
    if cells.isEmpty then extractRows rest
    else do
      let r ← extractRecord cells
      let rs ← extractRows rest
      .ok (r :: rs)

/-- Field extraction performed by `scrape_id_async` on a fetched document:
total-due text (or its absence sentinel) and the payment history (rows after
dropping the header row, or the table-absent sentinel). -/
def extract (html : Html) : Except String (String × PyHist) :=
  let total_due_amount :=
    match html.totalDueCell with
    | some t => pyStrip t
    | none => "Could not find total due"
  match html.paymentTable with
  | some table => do
    let records ← extractRows (table.drop 1)
    .ok (total_due_amount, .rows records)
  | none => .ok (total_due_amount, .notFound)

/-! ## Fetch-with-retry (scrape_id_async, lines 18-69) -/

/-- What one attempt of the simulated fetch does: raise an exception
(transport error), or deliver a response with a status code and a body. -/
inductive AttemptBeh where
  | err (e : String)
  | resp (status : Nat) (html : Html)
deriving DecidableEq

def exceptOk {ε α : Type} : Except ε α → Bool
  | .ok _ => true
  | .error _ => false

/-- `scrape_id_async(id, session, retry_count)`.  `beh retry_count` is the
behaviour of the attempt made at that `retry_count` value.  The `try` block
routes both transport exceptions and extraction exceptions to the handler,
which retries while `retry_count < MAX_RETRIES - 1`.  (The Python handler
would also catch an exception escaping the recursive call; the recursive call
provably never raises — `scrape_id_async_spec` below — so returning its
result directly is equivalent.) -/
def scrape_id_async (MR : Nat) (id : String) (beh : Nat → AttemptBeh)
    (retry_count : Nat) : Except String (String × PyResult) :=
  match beh retry_count with
  | .err e =>
    if _h : retry_count < MR - 1 then
      scrape_id_async MR id beh (retry_count + 1)
    else
      .ok (id, .str ("Error scraping ID " ++ id ++ " after " ++ toString MR
        ++ " attempts: " ++ e))
  | .resp status html =>
    if 400 ≤ status then
      if _h : retry_count < MR - 1 then
        scrape_id_async MR id beh (retry_count + 1)
      else
        .ok (id, .str ("Failed after " ++ toString MR ++ " attempts. Status: "
          ++ toString status))
    else
      match extract html with
      | .ok (total_due_amount, payment_history) =>
        .ok (id, .dict total_due_amount payment_history)
      | .error e =>
        if _h : retry_count < MR - 1 then
          scrape_id_async MR id beh (retry_count + 1)
        else
          .ok (id, .str ("Error scraping ID " ++ id ++ " after " ++ toString MR
            ++ " attempts: " ++ e))
termination_by MR - 1 - retry_count
decreasing_by all_goals omega

/-- Whether the attempt at one `retry_count` value fails (bad status,
transport exception, or extraction exception): exactly the situations in
which `scrape_id_async` retries or gives up. -/
def attemptFails : AttemptBeh → Bool
  | .err _ => true
  | .resp status html => decide (400 ≤ status) || !(exceptOk (extract html))

/-- Instrumentation of `scrape_id_async`: how many attempts (calls of the
fetch) are made starting from a given `retry_count`. -/
def attemptCount (MR : Nat) (beh : Nat → AttemptBeh) (retry_count : Nat) : Nat :=
  if attemptFails (beh retry_count) = true ∧ retry_count < MR - 1 then
    1 + attemptCount MR beh (retry_count + 1)
  else
    1
termination_by MR - 1 - retry_count
decreasing_by omega

/-- The outcome value finally produced for one identifier (second component
of the pair returned by `scrape_id_async`). -/
def scrapeResult (MR : Nat) (id : String) (beh : Nat → AttemptBeh)
    (retry_count : Nat) : PyResult :=
  match scrape_id_async MR id beh retry_count with
  | .ok p => p.2
  | .error e => .str e

/-- Whether the final outcome for one identifier (fetched with
`retry_count = 0`) is a failure according to the worker's classification. -/
def idFails (MR : Nat) (beh : String → Nat → AttemptBeh) (id : String) : Bool :=
  isFailureResult (scrapeResult MR id (beh id) 0)

/-! ## Python range, list slicing -/

/-- The elements of a Python `range(start, stop, step)` with nonnegative
arguments and a positive step. -/
def rangeList (start stop step : Nat) : List Nat :=
  if _h : 0 < step ∧ start < stop then
    start :: rangeList (start + step) stop step
  else
    []
termination_by stop - start
decreasing_by omega

/-- Python `range(start, stop, step)`: a zero step raises `ValueError`. -/
def pyRange (start stop step : Nat) : Except String (List Nat) :=
  if step = 0 then .error "range() arg 3 must not be zero"
  else .ok (rangeList start stop step)

/-! ## Checkpoint writer (save_checkpoint / save_failed_ids, lines 71-87) -/

/-- One line of the results CSV: the header row `['Property ID', 'Result']`
or one data row `[id, result]`. -/
inductive Row where
  | header
  | data (id : String) (result : PyResult)
deriving DecidableEq

def isHeader : Row → Bool
  | .header => true
  | .data _ _ => false

def headerCount (store : List Row) : Nat :=
  (store.filter isHeader).length

def dataCount (store : List Row) : Nat :=
  (store.filter (fun r => !isHeader r)).length

/-- `save_checkpoint(data, is_first_write)` applied to the current contents
of the results store: mode `'w'` truncates and emits the header first, mode
`'a'` appends; then one data row per `(id, result)` pair. -/
def save_checkpoint (store : List Row) (data : List (String × PyResult))
    (is_first_write : Bool) : List Row :=
  (if is_first_write then [Row.header] else store)
    ++ data.map (fun p => Row.data p.1 p.2)

/-- `save_failed_ids(failed_ids)`: the failure store is overwritten with one
identifier per line. -/
def save_failed_ids (failed_ids : List String) : List String :=
  failed_ids

/-! ## Batch runner (worker, lines 89-110) -/

/-- The shared mutable state the workers see: `processed_count.value`, the
shared `failed_ids` list, and the contents of the results store. -/
structure SharedState where
  processed : Nat
  failed : List String
  store : List Row
deriving DecidableEq

/-- `asyncio.gather` over `[scrape_id_async(id, session) for id in batch]`:
the results arrive in submission order; an exception in any task propagates. -/
def processBatch (MR : Nat) (beh : String → Nat → AttemptBeh)
    (batch : List String) : Except String (List (String × PyResult)) :=
  batch.mapM (fun id => scrape_id_async MR id (beh id) 0)

/-- The body of `worker`'s `for i in range(0, len(ids_chunk), BATCH_SIZE)`
loop, one iteration per batch: gather the batch, record failed identifiers,
extend the worker's buffer, bump the shared count, and flush on a checkpoint
boundary (`is_first_write` iff the count equals `checkpoint_size` exactly). -/
def workerLoop (MR ck : Nat) (beh : String → Nat → AttemptBeh) :
    List (List String) → List (String × PyResult) → SharedState →
    Except String (List (String × PyResult) × SharedState)
  | [], worker_results, st => .ok (worker_results, st)
  | batch :: rest, worker_results, st => do
    let batch_results ← processBatch MR beh batch
    let failed := st.failed ++
      (batch_results.filter (fun p => isFailureResult p.2)).map Prod.fst
    let worker_results := worker_results ++ batch_results
    let processed := st.processed + batch.length
    if processed % ck = 0 then
      workerLoop MR ck beh rest []
        ⟨processed, failed,
          save_checkpoint st.store worker_results (processed = ck)⟩
    else
      workerLoop MR ck beh rest worker_results ⟨processed, failed, st.store⟩

/-- `worker(worker_id, ids_chunk, processed_count, checkpoint_size,
failed_ids)`: slice the chunk into `BATCH_SIZE`-sized batches and run the
batch loop; returns the final (un-flushed) buffer. -/
def worker (MR BS ck : Nat) (beh : String → Nat → AttemptBeh)
    (ids_chunk : List String) (st : SharedState) :
    Except String (List (String × PyResult) × SharedState) := do
  let idxs ← pyRange 0 ids_chunk.length BS
  workerLoop MR ck beh (idxs.map (fun i => (ids_chunk.drop i).take BS)) [] st

/-! ## Pool coordinator (scrape_all_ids, lines 112-149) -/

/-- The chunk-size computation of `scrape_all_ids`:
`len // NUM_WORKERS`, plus one when the division leaves a remainder. -/
def chunk_size (N W : Nat) : Nat :=
  N / W + (if N % W > 0 then 1 else 0)

/-- The chunk list `[ids_list[i:i+chunk_size] for i in
range(0, len(ids_list), chunk_size)]` (a zero `chunk_size`, i.e. an empty
identifier list, makes `range` raise). -/
def computeChunks (W : Nat) (ids_list : List String) :
    Except String (List (List String)) := do
  let cs := chunk_size ids_list.length W
  let idxs ← pyRange 0 ids_list.length cs
  .ok (idxs.map (fun i => (ids_list.drop i).take cs))

/-- `asyncio.gather(*worker_tasks)` under the sequential schedule: the
workers run one after the other over the shared state; their final buffers
are collected in worker order. -/
def runWorkers (MR BS ck : Nat) (beh : String → Nat → AttemptBeh) :
    List (List String) → SharedState →
    Except String (List (List (String × PyResult)) × SharedState)
  | [], st => .ok ([], st)
  | chunk :: rest, st => do
    let (buf, st') ← worker MR BS ck beh chunk st
    let (bufs, st'') ← runWorkers MR BS ck beh rest st'
    .ok (buf :: bufs, st'')

/-- What a full run leaves behind: the final `processed_count.value`, the
results store, and the failure store (`none` when `save_failed_ids` was
never called). -/
structure RunOutput where
  processed : Nat
  store : List Row
  failedStore : Option (List String)
deriving DecidableEq

/-- `scrape_all_ids(ids_list)` started with the results store holding
`store0`: chunk the list, run every worker, flush the concatenated leftover
buffers (`is_first_write` iff fewer than `CHECKPOINT_SIZE` identifiers were
processed in total), and persist the failed identifiers when any exist. -/
def scrape_all_ids (MR BS W ck : Nat) (beh : String → Nat → AttemptBeh)
    (ids_list : List String) (store0 : List Row) : Except String RunOutput := do
  let id_chunks ← computeChunks W ids_list
  let (final_results, st) ← runWorkers MR BS ck beh id_chunks ⟨0, [], store0⟩
  let remaining_results := final_results.flatten
  let store :=
    if remaining_results.isEmpty then st.store
    else save_checkpoint st.store remaining_results (decide (st.processed < ck))
  let failedStore :=
    if st.failed.isEmpty then none else some (save_failed_ids st.failed)
  .ok ⟨st.processed, store, failedStore⟩

/-! ## Entry point (run_scraper, lines 151-180) -/

/-- `run_scraper()`.  The identifier list file is `none` when absent
(`FileNotFoundError`, caught, returns 0) and `some lines` otherwise
(`f.read().splitlines()` of an empty file is the empty list).  Any other
exception — in particular the `ValueError` the chunk computation raises on an
empty list — hits the generic handler, which also returns 0.  (The timing
statistics divide by `len(ids_list)`; that line is only reached when the list
is non-empty, so the division cannot raise.) -/
def run_scraper (MR BS W ck : Nat) (beh : String → Nat → AttemptBeh)
    (file : Option (List String)) (store0 : List Row) : Nat :=
  match file with
  | none => 0
  | some ids_list =>
    match scrape_all_ids MR BS W ck beh ids_list store0 with
    | .error _ => 0
    | .ok out => out.processed

/-! ## Basic lemmas about the fetch -/

/-- The possible shapes of an outcome value: the success dict, the
exhausted-retries message, or the exception message. -/
def ResultShape (MR : Nat) (id : String) (r : PyResult) : Prop :=
  (∃ td ph, r = PyResult.dict td ph) ∨
  (∃ status : Nat, r = PyResult.str ("Failed after " ++ toString MR
    ++ " attempts. Status: " ++ toString status)) ∨
  (∃ e, r = PyResult.str ("Error scraping ID " ++ id ++ " after "
    ++ toString MR ++ " attempts: " ++ e))

theorem scrape_id_async_spec (MR : Nat) (id : String) (beh : Nat → AttemptBeh) :
    ∀ rc, ∃ r, scrape_id_async MR id beh rc = Except.ok (id, r) ∧
      ResultShape MR id r := by
  have H : ∀ fuel rc, MR - 1 - rc ≤ fuel →
      ∃ r, scrape_id_async MR id beh rc = Except.ok (id, r) ∧
        ResultShape MR id r := by
    intro fuel
    induction fuel with
    | zero =>
      intro rc hrc
      rw [scrape_id_async.eq_def]
      split
      · split
        · omega
        · exact ⟨_, rfl, Or.inr (Or.inr ⟨_, rfl⟩)⟩
      · split
        · split
          · omega
          · exact ⟨_, rfl, Or.inr (Or.inl ⟨_, rfl⟩)⟩
        · split
          · exact ⟨_, rfl, Or.inl ⟨_, _, rfl⟩⟩
          · split
            · omega
            · exact ⟨_, rfl, Or.inr (Or.inr ⟨_, rfl⟩)⟩
    | succ n ih =>
      intro rc hrc
      rw [scrape_id_async.eq_def]
      split
      · split
        · exact ih (rc + 1) (by omega)
        · exact ⟨_, rfl, Or.inr (Or.inr ⟨_, rfl⟩)⟩
      · split
        · split
          · exact ih (rc + 1) (by omega)
          · exact ⟨_, rfl, Or.inr (Or.inl ⟨_, rfl⟩)⟩
        · split
          · exact ⟨_, rfl, Or.inl ⟨_, _, rfl⟩⟩
          · split
            · exact ih (rc + 1) (by omega)
            · exact ⟨_, rfl, Or.inr (Or.inr ⟨_, rfl⟩)⟩
  exact fun rc => H (MR - 1 - rc) rc le_rfl

/-- `scrape_id_async` always returns normally, with the given identifier as
first component and `scrapeResult` as second. -/
theorem scrape_id_async_eq (MR : Nat) (id : String) (beh : Nat → AttemptBeh)
    (rc : Nat) :
    scrape_id_async MR id beh rc = Except.ok (id, scrapeResult MR id beh rc) := by
  obtain ⟨r, hr, -⟩ := scrape_id_async_spec MR id beh rc
  rw [scrapeResult, hr]

/-! Unfolding lemmas for the seven execution paths of one attempt. -/

theorem scrape_err_retry {MR rc : Nat} {beh : Nat → AttemptBeh} {e : String}
    (id : String) (hb : beh rc = .err e) (h : rc < MR - 1) :
    scrape_id_async MR id beh rc = scrape_id_async MR id beh (rc + 1) := by
  rw [scrape_id_async.eq_def, hb]
  simp only [dif_pos h]

theorem scrape_err_stop {MR rc : Nat} {beh : Nat → AttemptBeh} {e : String}
    (id : String) (hb : beh rc = .err e) (h : ¬ rc < MR - 1) :
    scrape_id_async MR id beh rc = .ok (id, .str ("Error scraping ID " ++ id
      ++ " after " ++ toString MR ++ " attempts: " ++ e)) := by
  rw [scrape_id_async.eq_def, hb]
  simp only [dif_neg h]

theorem scrape_status_retry {MR rc status : Nat} {beh : Nat → AttemptBeh}
    {html : Html} (id : String) (hb : beh rc = .resp status html)
    (h4 : 400 ≤ status) (h : rc < MR - 1) :
    scrape_id_async MR id beh rc = scrape_id_async MR id beh (rc + 1) := by
  rw [scrape_id_async.eq_def, hb]
  simp only [if_pos h4, dif_pos h]

theorem scrape_status_stop {MR rc status : Nat} {beh : Nat → AttemptBeh}
    {html : Html} (id : String) (hb : beh rc = .resp status html)
    (h4 : 400 ≤ status) (h : ¬ rc < MR - 1) :
    scrape_id_async MR id beh rc = .ok (id, .str ("Failed after "
      ++ toString MR ++ " attempts. Status: " ++ toString status)) := by
  rw [scrape_id_async.eq_def, hb]
  simp only [if_pos h4, dif_neg h]

theorem scrape_extract_ok {MR rc status : Nat} {beh : Nat → AttemptBeh}
    {html : Html} {td : String} {ph : PyHist} (id : String)
    (hb : beh rc = .resp status html) (h4 : ¬ 400 ≤ status)
    (hex : extract html = .ok (td, ph)) :
    scrape_id_async MR id beh rc = .ok (id, .dict td ph) := by
  rw [scrape_id_async.eq_def, hb]
  simp only [if_neg h4, hex]

theorem scrape_extract_err_retry {MR rc status : Nat} {beh : Nat → AttemptBeh}
    {html : Html} {e : String} (id : String)
    (hb : beh rc = .resp status html) (h4 : ¬ 400 ≤ status)
    (hex : extract html = .error e) (h : rc < MR - 1) :
    scrape_id_async MR id beh rc = scrape_id_async MR id beh (rc + 1) := by
  rw [scrape_id_async.eq_def, hb]
  simp only [if_neg h4, hex, dif_pos h]

theorem scrape_extract_err_stop {MR rc status : Nat} {beh : Nat → AttemptBeh}
    {html : Html} {e : String} (id : String)
    (hb : beh rc = .resp status html) (h4 : ¬ 400 ≤ status)
    (hex : extract html = .error e) (h : ¬ rc < MR - 1) :
    scrape_id_async MR id beh rc = .ok (id, .str ("Error scraping ID " ++ id
      ++ " after " ++ toString MR ++ " attempts: " ++ e)) := by
  rw [scrape_id_async.eq_def, hb]
  simp only [if_neg h4, hex, dif_neg h]

theorem attemptCount_retry {MR rc : Nat} {beh : Nat → AttemptBeh}
    (hf : attemptFails (beh rc) = true) (h : rc < MR - 1) :
    attemptCount MR beh rc = 1 + attemptCount MR beh (rc + 1) := by
  rw [attemptCount.eq_def]
  simp only [if_pos (And.intro hf h)]

theorem attemptCount_stop {MR rc : Nat} {beh : Nat → AttemptBeh}
    (h : attemptFails (beh rc) = false ∨ ¬ rc < MR - 1) :
    attemptCount MR beh rc = 1 := by
  rw [attemptCount.eq_def]
  rw [if_neg]
  rintro ⟨h1, h2⟩
  rcases h with h | h
  · rw [h1] at h
    exact absurd h (by simp)
  · exact h h2

/-- A failing attempt below the retry ceiling makes `scrape_id_async` move on
to the next `retry_count` value. -/
theorem scrape_fail_step (MR : Nat) (id : String) (beh : Nat → AttemptBeh)
    {rc : Nat} (hf : attemptFails (beh rc) = true) (hlt : rc < MR - 1) :
    scrape_id_async MR id beh rc = scrape_id_async MR id beh (rc + 1) := by
  rcases hbeh : beh rc with e | ⟨status, html⟩
  · exact scrape_err_retry id hbeh hlt
  · by_cases h4 : 400 ≤ status
    · exact scrape_status_retry id hbeh h4 hlt
    · rw [hbeh] at hf
      simp only [attemptFails] at hf
      rcases hex : extract html with e | v
      · exact scrape_extract_err_retry id hbeh h4 hex hlt
      · rw [hex] at hf
        simp [exceptOk, h4] at hf

/-- A failing attempt at the retry ceiling makes `scrape_id_async` give up
with a failure string. -/
theorem scrape_fail_stop (MR : Nat) (id : String) (beh : Nat → AttemptBeh)
    {rc : Nat} (hf : attemptFails (beh rc) = true) (hstop : ¬ rc < MR - 1) :
    ∃ s, scrape_id_async MR id beh rc = Except.ok (id, PyResult.str s) := by
  rcases hbeh : beh rc with e | ⟨status, html⟩
  · exact ⟨_, scrape_err_stop id hbeh hstop⟩
  · by_cases h4 : 400 ≤ status
    · exact ⟨_, scrape_status_stop id hbeh h4 hstop⟩
    · rw [hbeh] at hf
      simp only [attemptFails] at hf
      rcases hex : extract html with e | v
      · exact ⟨_, scrape_extract_err_stop id hbeh h4 hex hstop⟩
      · rw [hex] at hf
        simp [exceptOk, h4] at hf

/-- When every attempt fails, the run from any `retry_count` makes
`MR - 1 - rc + 1` further attempts and ends in a failure string. -/
theorem allFail_spec (MR : Nat) (id : String) (beh : Nat → AttemptBeh)
    (hfail : ∀ i, attemptFails (beh i) = true) :
    ∀ rc, attemptCount MR beh rc = MR - 1 - rc + 1 ∧
      ∃ s, scrape_id_async MR id beh rc = Except.ok (id, PyResult.str s) := by
  have H : ∀ fuel rc, MR - 1 - rc ≤ fuel →
      attemptCount MR beh rc = MR - 1 - rc + 1 ∧
      ∃ s, scrape_id_async MR id beh rc = Except.ok (id, PyResult.str s) := by
    intro fuel
    induction fuel with
    | zero =>
      intro rc hrc
      have hstop : ¬ rc < MR - 1 := by omega
      refine ⟨?_, scrape_fail_stop MR id beh (hfail rc) hstop⟩
      rw [attemptCount_stop (Or.inr hstop)]
      omega
    | succ n ih =>
      intro rc hrc
      by_cases hlt : rc < MR - 1
      · obtain ⟨hc, hs⟩ := ih (rc + 1) (by omega)
        refine ⟨?_, ?_⟩
        · rw [attemptCount_retry (hfail rc) hlt, hc]
          omega
        · rw [scrape_fail_step MR id beh (hfail rc) hlt]
          exact hs
      · refine ⟨?_, scrape_fail_stop MR id beh (hfail rc) hlt⟩
        rw [attemptCount_stop (Or.inr hlt)]
        omega
  exact fun rc => H (MR - 1 - rc) rc le_rfl

/-- A non-failing attempt returns the success dict at once. -/
theorem scrape_success_stop (MR : Nat) (id : String) (beh : Nat → AttemptBeh)
    {rc : Nat} (hs : attemptFails (beh rc) = false) :
    attemptCount MR beh rc = 1 ∧
    ∃ td ph, scrape_id_async MR id beh rc = Except.ok (id, PyResult.dict td ph) := by
  refine ⟨attemptCount_stop (Or.inl hs), ?_⟩
  rcases hbeh : beh rc with e | ⟨status, html⟩
  · rw [hbeh] at hs
    simp [attemptFails] at hs
  · rw [hbeh] at hs
    simp only [attemptFails] at hs
    by_cases h4 : 400 ≤ status
    · simp [h4] at hs
    · rcases hex : extract html with e | ⟨td, ph⟩
      · rw [hex] at hs
        simp [exceptOk, h4] at hs
      · exact ⟨td, ph, scrape_extract_ok id hbeh h4 hex⟩

/-- When the attempts at indices `rc, …, j-1` fail and the attempt at index
`j ≤ MR - 1` does not, the run from `rc` makes `j - rc + 1` attempts and
ends in the success dict. -/
theorem firstSuccess_spec (MR : Nat) (id : String) (beh : Nat → AttemptBeh) :
    ∀ rc j, rc ≤ j → j ≤ MR - 1 →
      (∀ i, rc ≤ i → i < j → attemptFails (beh i) = true) →
      attemptFails (beh j) = false →
      attemptCount MR beh rc = j - rc + 1 ∧
      ∃ td ph, scrape_id_async MR id beh rc = Except.ok (id, PyResult.dict td ph) := by
  have H : ∀ fuel rc j, j - rc ≤ fuel → rc ≤ j → j ≤ MR - 1 →
      (∀ i, rc ≤ i → i < j → attemptFails (beh i) = true) →
      attemptFails (beh j) = false →
      attemptCount MR beh rc = j - rc + 1 ∧
      ∃ td ph, scrape_id_async MR id beh rc = Except.ok (id, PyResult.dict td ph) := by
    intro fuel
    induction fuel with
    | zero =>
      intro rc j hfuel hrcj _hj _hfi hsucc
      have hrj : rc = j := by omega
      subst hrj
      obtain ⟨hc, hs⟩ := scrape_success_stop MR id beh hsucc
      exact ⟨by omega, hs⟩
    | succ n ih =>
      intro rc j hfuel hrcj hj hfi hsucc
      by_cases heq : rc = j
      · subst heq
        obtain ⟨hc, hs⟩ := scrape_success_stop MR id beh hsucc
        exact ⟨by omega, hs⟩
      · have hlt : rc < j := by omega
        have hfrc : attemptFails (beh rc) = true := hfi rc le_rfl hlt
        have hrcMR : rc < MR - 1 := by omega
        obtain ⟨hc, hs⟩ := ih (rc + 1) j (by omega) (by omega) hj
          (fun i h1 h2 => hfi i (by omega) h2) hsucc
        refine ⟨?_, ?_⟩
        · rw [attemptCount_retry hfrc hrcMR, hc]
          omega
        · rw [scrape_fail_step MR id beh hfrc hrcMR]
          exact hs
  exact fun rc j hrcj hj hfi hsucc =>
    H (j - rc) rc j le_rfl hrcj hj hfi hsucc

/-! ## String prefix lemmas for the failure classification -/

theorem pyStartsWith_append (pre s t : String)
    (h : pyStartsWith s pre = true) : pyStartsWith (s ++ t) pre = true := by
  rw [pyStartsWith] at h ⊢
  rw [String.data_append]
  rw [List.isPrefixOf_iff_prefix] at h ⊢
  exact h.trans (List.prefix_append _ _)

theorem failedMsg_startsWith (MR status : Nat) :
    pyStartsWith ("Failed after " ++ toString MR ++ " attempts. Status: "
      ++ toString status) "Failed" = true := by
  apply pyStartsWith_append
  apply pyStartsWith_append
  apply pyStartsWith_append
  decide

theorem failedMsg_startsWith_full (MR status : Nat) :
    pyStartsWith ("Failed after " ++ toString MR ++ " attempts. Status: "
      ++ toString status) "Failed after" = true := by
  apply pyStartsWith_append
  apply pyStartsWith_append
  apply pyStartsWith_append
  decide

theorem errorMsg_startsWith (MR : Nat) (id e : String) :
    pyStartsWith ("Error scraping ID " ++ id ++ " after " ++ toString MR
      ++ " attempts: " ++ e) "Error" = true := by
  apply pyStartsWith_append
  apply pyStartsWith_append
  apply pyStartsWith_append
  apply pyStartsWith_append
  apply pyStartsWith_append
  decide

theorem errorMsg_startsWith_full (MR : Nat) (id e : String) :
    pyStartsWith ("Error scraping ID " ++ id ++ " after " ++ toString MR
      ++ " attempts: " ++ e) "Error scraping" = true := by
  apply pyStartsWith_append
  apply pyStartsWith_append
  apply pyStartsWith_append
  apply pyStartsWith_append
  apply pyStartsWith_append
  decide

/-- On every reachable outcome value, the worker's string-prefix test is
exactly the success/failure distinction. -/
theorem resultShape_classification {MR : Nat} {id : String} {r : PyResult}
    (h : ResultShape MR id r) :
    isFailureResult r = true ↔ ∃ s, r = PyResult.str s := by
  rcases h with ⟨td, ph, rfl⟩ | ⟨status, rfl⟩ | ⟨e, rfl⟩
  · simp [isFailureResult]
  · constructor
    · intro _
      exact ⟨_, rfl⟩
    · intro _
      simp only [isFailureResult]
      rw [failedMsg_startsWith MR status, Bool.or_true]
  · constructor
    · intro _
      exact ⟨_, rfl⟩
    · intro _
      simp only [isFailureResult]
      rw [errorMsg_startsWith MR id e, Bool.true_or]

/-! ## Batch lemmas -/

theorem processBatch_eq (MR : Nat) (beh : String → Nat → AttemptBeh) :
    ∀ batch : List String, processBatch MR beh batch =
      Except.ok (batch.map (fun id => (id, scrapeResult MR id (beh id) 0))) := by
  intro batch
  induction batch with
  | nil => rfl
  | cons a t ih =>
    rw [processBatch] at ih ⊢
    rw [List.mapM_cons, scrape_id_async_eq, ih]
    rfl

/-! ## Lemmas about rangeList and chunking -/

theorem rangeList_stop {start stop step : Nat}
    (h : ¬ (0 < step ∧ start < stop)) : rangeList start stop step = [] := by
  rw [rangeList.eq_def, dif_neg h]

theorem rangeList_step {start stop step : Nat} (h : 0 < step ∧ start < stop) :
    rangeList start stop step = start :: rangeList (start + step) stop step := by
  rw [rangeList.eq_def, dif_pos h]

theorem rangeList_shift (step : Nat) (hs : 0 < step) :
    ∀ b a k, rangeList (a + k) (b + k) step
      = (rangeList a b step).map (fun i => i + k) := by
  have H : ∀ fuel a b k, b - a ≤ fuel →
      rangeList (a + k) (b + k) step
        = (rangeList a b step).map (fun i => i + k) := by
    intro fuel
    induction fuel with
    | zero =>
      intro a b k h
      rw [rangeList_stop (by omega), rangeList_stop (by omega)]
      rfl
    | succ n ih =>
      intro a b k h
      by_cases hab : a < b
      · rw [rangeList_step ⟨hs, by omega⟩, rangeList_step ⟨hs, hab⟩]
        simp only [List.map_cons]
        rw [Nat.add_right_comm a k step]
        rw [ih (a + step) b k (by omega)]
      · rw [rangeList_stop (by omega), rangeList_stop (by omega)]
        rfl
  exact fun b a k => H (b - a) a b k le_rfl

theorem rangeList_tail (cs n : Nat) (hcs : 0 < cs) (hlt : cs < n) :
    rangeList (0 + cs) n cs = (rangeList 0 (n - cs) cs).map (fun i => i + cs) := by
  have h := rangeList_shift cs hcs (n - cs) 0 cs
  rw [Nat.sub_add_cancel (by omega)] at h
  exact h

theorem rangeList_mem_bounds (step : Nat) :
    ∀ stop start i, i ∈ rangeList start stop step → start ≤ i ∧ i < stop := by
  have H : ∀ fuel start stop, stop - start ≤ fuel →
      ∀ i, i ∈ rangeList start stop step → start ≤ i ∧ i < stop := by
    intro fuel
    induction fuel with
    | zero =>
      intro start stop h i hi
      by_cases hc : 0 < step ∧ start < stop
      · omega
      · rw [rangeList_stop hc] at hi
        simp at hi
    | succ n ih =>
      intro start stop h i hi
      by_cases hc : 0 < step ∧ start < stop
      · rw [rangeList_step hc] at hi
        rcases List.mem_cons.mp hi with rfl | hi
        · omega
        · have := ih (start + step) stop (by omega) i hi
          omega
      · rw [rangeList_stop hc] at hi
        simp at hi
  exact fun stop start i hi => H (stop - start) start stop le_rfl i hi

/-- The contiguous slices at the indices of `rangeList 0 (length l) cs`
reassemble `l`. -/
theorem chunks_flatten {α : Type} (cs : Nat) (hcs : 0 < cs) :
    ∀ l : List α,
      ((rangeList 0 l.length cs).map (fun i => (l.drop i).take cs)).flatten = l := by
  have H : ∀ fuel (l : List α), l.length ≤ fuel →
      ((rangeList 0 l.length cs).map (fun i => (l.drop i).take cs)).flatten = l := by
    intro fuel
    induction fuel with
    | zero =>
      intro l h
      have hl : l = [] := by
        cases l with
        | nil => rfl
        | cons a t => simp at h
      subst hl
      rw [rangeList_stop (by simp)]
      rfl
    | succ n ih =>
      intro l h
      by_cases hl : l.length = 0
      · have hnil : l = [] := List.eq_nil_of_length_eq_zero hl
        subst hnil
        rw [rangeList_stop (by simp)]
        rfl
      · rw [rangeList_step ⟨hcs, by omega⟩]
        simp only [List.map_cons, List.flatten_cons, List.drop_zero]
        by_cases hcl : l.length ≤ cs
        · rw [rangeList_stop (by omega)]
          simp [List.take_of_length_le hcl]
        · rw [rangeList_tail cs l.length hcs (by omega), List.map_map]
          have hfun : ((fun i => (l.drop i).take cs) ∘ (fun i => i + cs))
              = (fun i => (((l.drop cs).drop i)).take cs) := by
            funext i
            simp only [Function.comp_apply, List.drop_drop]
            rw [Nat.add_comm cs i]
          rw [hfun]
          have ihl := ih (l.drop cs) (by rw [List.length_drop]; omega)
          rw [List.length_drop] at ihl
          rw [ihl]
          exact List.take_append_drop cs l
  exact fun l => H l.length l le_rfl

/-- The slice lengths are `cs, …, cs, r` with a final remainder
`0 < r ≤ cs`. -/
theorem chunks_shape {α : Type} (cs : Nat) (hcs : 0 < cs) :
    ∀ l : List α, l ≠ [] →
      ∃ m r, (rangeList 0 l.length cs).map (fun i => ((l.drop i).take cs).length)
          = List.replicate m cs ++ [r] ∧ 0 < r ∧ r ≤ cs := by
  have H : ∀ fuel (l : List α), l.length ≤ fuel → l ≠ [] →
      ∃ m r, (rangeList 0 l.length cs).map (fun i => ((l.drop i).take cs).length)
          = List.replicate m cs ++ [r] ∧ 0 < r ∧ r ≤ cs := by
    intro fuel
    induction fuel with
    | zero =>
      intro l h hne
      exfalso
      cases l with
      | nil => exact hne rfl
      | cons a t => simp at h
    | succ n ih =>
      intro l h hne
      have hl : 0 < l.length := List.length_pos.mpr hne
      rw [rangeList_step ⟨hcs, by omega⟩]
      simp only [List.map_cons, List.drop_zero]
      by_cases hcl : l.length ≤ cs
      · refine ⟨0, l.length, ?_, by omega, hcl⟩
        rw [rangeList_stop (by omega)]
        simp only [List.map_nil, List.replicate_zero, List.nil_append,
          List.length_take]
        congr 1
        omega
      · rw [rangeList_tail cs l.length hcs (by omega), List.map_map]
        have hfun : ((fun i => ((l.drop i).take cs).length) ∘ (fun i => i + cs))
            = (fun i => (((l.drop cs).drop i).take cs).length) := by
          funext i
          simp only [Function.comp_apply, List.drop_drop]
          rw [Nat.add_comm cs i]
        rw [hfun]
        have hdl : (l.drop cs).length = l.length - cs := List.length_drop cs l
        have hdne : l.drop cs ≠ [] := by
          intro hx
          rw [hx] at hdl
          simp at hdl
          omega
        obtain ⟨m, r, hmr, hr0, hrc⟩ := ih (l.drop cs) (by omega) hdne
        rw [hdl] at hmr
        refine ⟨m + 1, r, ?_, hr0, hrc⟩
        rw [List.replicate_succ, List.cons_append, hmr, List.length_take]
        congr 1
        omega
  exact fun l => H l.length l le_rfl

/-! ## Arithmetic facts about the chunk size -/

theorem chunk_size_pos (N W : Nat) (hN : 0 < N) : 0 < chunk_size N W := by
  have hmod := Nat.div_add_mod N W
  rw [chunk_size]
  by_cases hr : N % W > 0
  · rw [if_pos hr]
    exact Nat.succ_pos _
  · rw [if_neg hr, Nat.add_zero]
    rcases Nat.eq_zero_or_pos (N / W) with hq | hq
    · exfalso
      rw [hq, Nat.mul_zero] at hmod
      omega
    · exact hq

theorem length_le_mul_chunk_size (N W : Nat) (hW : 0 < W) :
    N ≤ W * chunk_size N W := by
  have hmod := Nat.div_add_mod N W
  have hlt : N % W < W := Nat.mod_lt N hW
  rw [chunk_size]
  by_cases hr : N % W > 0
  · rw [if_pos hr, Nat.mul_add, Nat.mul_one]
    omega
  · rw [if_neg hr, Nat.mul_add, Nat.mul_zero]
    omega

theorem chunk_size_eq_ceil (N W : Nat) (hW : 0 < W) :
    chunk_size N W = (N + W - 1) / W := by
  have hmod := Nat.div_add_mod N W
  have hlt : N % W < W := Nat.mod_lt N hW
  rw [chunk_size]
  generalize hq : N / W = q at hmod ⊢
  generalize hrr : N % W = r at hmod hlt ⊢
  rw [← hmod]
  rw [show W * q + r + W - 1 = W * q + (r + W - 1) from by omega]
  rw [Nat.mul_add_div hW]
  by_cases hr : r > 0
  · rw [if_pos hr, show r + W - 1 = (r - 1) + W from by omega,
      Nat.add_div_right _ hW, Nat.div_eq_of_lt (by omega)]
  · rw [if_neg hr, show r + W - 1 = W - 1 from by omega,
      Nat.div_eq_of_lt (by omega)]

/-! ## Store counting lemmas -/

theorem except_ok_bind {ε α β : Type} (a : α) (f : α → Except ε β) :
    (Except.ok a >>= f : Except ε β) = f a := rfl

theorem dataCount_append (s t : List Row) :
    dataCount (s ++ t) = dataCount s + dataCount t := by
  rw [dataCount, dataCount, dataCount, List.filter_append, List.length_append]

theorem headerCount_append (s t : List Row) :
    headerCount (s ++ t) = headerCount s + headerCount t := by
  rw [headerCount, headerCount, headerCount, List.filter_append,
    List.length_append]

theorem dataCount_dataRows (l : List (String × PyResult)) :
    dataCount (l.map (fun p => Row.data p.1 p.2)) = l.length := by
  induction l with
  | nil => rfl
  | cons a t ih =>
    rw [List.map_cons, dataCount, List.filter_cons,
      show (!isHeader (Row.data a.1 a.2)) = true from rfl, if_pos rfl,
      List.length_cons, List.length_cons]
    rw [dataCount] at ih
    rw [ih]

theorem headerCount_dataRows (l : List (String × PyResult)) :
    headerCount (l.map (fun p => Row.data p.1 p.2)) = 0 := by
  induction l with
  | nil => rfl
  | cons a t ih =>
    rw [List.map_cons, headerCount, List.filter_cons,
      show isHeader (Row.data a.1 a.2) = false from rfl]
    simp only [Bool.false_eq_true, if_false]
    rw [headerCount] at ih
    rw [ih]

theorem mem_dataRows_ne_header {l : List (String × PyResult)} {r : Row}
    (h : r ∈ l.map (fun p => Row.data p.1 p.2)) : r ≠ Row.header := by
  obtain ⟨p, -, rfl⟩ := List.mem_map.mp h
  intro hx
  cases hx

theorem mem_append_drop_one {s t : List Row} {r : Row}
    (h : r ∈ (s ++ t).drop 1) : r ∈ s.drop 1 ∨ r ∈ t := by
  cases s with
  | nil =>
    rw [List.nil_append] at h
    exact Or.inr (List.drop_subset 1 t h)
  | cons a s' =>
    rw [List.cons_append, List.drop_one, List.tail_cons] at h
    rcases List.mem_append.mp h with h1 | h2
    · exact Or.inl (by rw [List.drop_one, List.tail_cons]; exact h1)
    · exact Or.inr h2

theorem batch_failed_eq (MR : Nat) (beh : String → Nat → AttemptBeh) :
    ∀ batch : List String,
      ((batch.map (fun id => (id, scrapeResult MR id (beh id) 0))).filter
        (fun p => isFailureResult p.2)).map Prod.fst
      = batch.filter (idFails MR beh) := by
  intro batch
  induction batch with
  | nil => rfl
  | cons a t ih =>
    simp only [List.map_cons, List.filter_cons]
    have hpred : isFailureResult (scrapeResult MR a (beh a) 0)
        = idFails MR beh a := rfl
    by_cases hf : idFails MR beh a = true
    · rw [hpred, hf]
      simp only [if_true, List.map_cons, ih]
    · rw [hpred, Bool.not_eq_true] at *
      rw [hf]
      simp only [Bool.false_eq_true, if_false, ih]

/-! ## The shared-store invariant maintained by the workers -/

/-- Invariant on the shared state during a run started with an empty results
store: before the count reaches the checkpoint size nothing has been flushed,
the header can only sit on the first line, and there is at most one. -/
def StoreInv (ck : Nat) (st : SharedState) : Prop :=
  (st.processed < ck → st.store = []) ∧
  (∀ r ∈ st.store.drop 1, r ≠ Row.header) ∧
  headerCount st.store ≤ 1

/-- Any checkpoint write preserves the store shape, provided a truncating
write only happens while the store is still empty. -/
theorem save_checkpoint_inv (ck : Nat) (st : SharedState) (hInv : StoreInv ck st)
    (wr2 : List (String × PyResult)) (b : Bool)
    (hb : b = true → st.store = []) :
    dataCount (save_checkpoint st.store wr2 b)
      = dataCount st.store + wr2.length ∧
    (∀ r ∈ (save_checkpoint st.store wr2 b).drop 1, r ≠ Row.header) ∧
    headerCount (save_checkpoint st.store wr2 b) ≤ 1 := by
  cases b with
  | true =>
    have hempty := hb rfl
    rw [save_checkpoint, if_pos rfl]
    refine ⟨?_, ?_, ?_⟩
    · rw [dataCount_append, hempty]
      rw [dataCount_dataRows]
      rfl
    · intro r hr
      rw [show ([Row.header]
          ++ wr2.map (fun p => Row.data p.1 p.2)).drop 1
          = wr2.map (fun p => Row.data p.1 p.2) from rfl] at hr
      exact mem_dataRows_ne_header hr
    · rw [headerCount_append, headerCount_dataRows]
      rfl
  | false =>
    rw [save_checkpoint, if_neg (by simp)]
    refine ⟨?_, ?_, ?_⟩
    · rw [dataCount_append, dataCount_dataRows]
    · intro r hr
      rcases mem_append_drop_one hr with h1 | h2
      · exact hInv.2.1 r h1
      · exact mem_dataRows_ne_header h2
    · rw [headerCount_append, headerCount_dataRows]
      have := hInv.2.2
      omega

/-- Unfolding of one iteration of the worker batch loop. -/
theorem workerLoop_cons (MR ck : Nat) (beh : String → Nat → AttemptBeh)
    (batch : List String) (rest : List (List String))
    (wr : List (String × PyResult)) (st : SharedState)
    (brs : List (String × PyResult))
    (hpb : processBatch MR beh batch = .ok brs) :
    workerLoop MR ck beh (batch :: rest) wr st =
      if (st.processed + batch.length) % ck = 0 then
        workerLoop MR ck beh rest []
          ⟨st.processed + batch.length,
           st.failed ++ (brs.filter (fun p => isFailureResult p.2)).map Prod.fst,
           save_checkpoint st.store (wr ++ brs)
             (decide (st.processed + batch.length = ck))⟩
      else
        workerLoop MR ck beh rest (wr ++ brs)
          ⟨st.processed + batch.length,
           st.failed ++ (brs.filter (fun p => isFailureResult p.2)).map Prod.fst,
           st.store⟩ := by
  rw [workerLoop, hpb, except_ok_bind]

theorem workerLoop_spec (MR ck : Nat) (beh : String → Nat → AttemptBeh)
    (_hck : 0 < ck) :
    ∀ batches wr st, (∀ b ∈ batches, b ≠ []) → StoreInv ck st →
      ∃ wr2 st2, workerLoop MR ck beh batches wr st = .ok (wr2, st2) ∧
        st2.processed = st.processed + batches.flatten.length ∧
        dataCount st2.store + wr2.length
          = dataCount st.store + wr.length + batches.flatten.length ∧
        st2.failed = st.failed ++ batches.flatten.filter (idFails MR beh) ∧
        StoreInv ck st2 := by
  intro batches
  induction batches with
  | nil =>
    intro wr st _ hInv
    exact ⟨wr, st, rfl, by simp, by simp, by simp, hInv⟩
  | cons batch rest ih =>
    intro wr st hb hInv
    have hb1 : batch ≠ [] := hb batch (List.mem_cons_self batch rest)
    have hblen : 0 < batch.length := List.length_pos.mpr hb1
    have hbrest : ∀ b ∈ rest, b ≠ [] :=
      fun b hbm => hb b (List.mem_cons_of_mem batch hbm)
    set brs := batch.map (fun id => (id, scrapeResult MR id (beh id) 0))
      with hbrs
    have hbrslen : brs.length = batch.length := by
      rw [hbrs, List.length_map]
    have hfail : (brs.filter (fun p => isFailureResult p.2)).map Prod.fst
        = batch.filter (idFails MR beh) := batch_failed_eq MR beh batch
    rw [workerLoop_cons MR ck beh batch rest wr st brs
      (processBatch_eq MR beh batch)]
    by_cases hmod : (st.processed + batch.length) % ck = 0
    · rw [if_pos hmod]
      have hge : ck ≤ st.processed + batch.length :=
        Nat.le_of_dvd (by omega) (Nat.dvd_of_mod_eq_zero hmod)
      have hsave := save_checkpoint_inv ck st hInv (wr ++ brs)
        (decide (st.processed + batch.length = ck))
        (fun hdec => hInv.1 (by
          have h1 := of_decide_eq_true hdec
          omega))
      set stNew : SharedState :=
        ⟨st.processed + batch.length,
         st.failed ++ (brs.filter (fun p => isFailureResult p.2)).map Prod.fst,
         save_checkpoint st.store (wr ++ brs)
           (decide (st.processed + batch.length = ck))⟩ with hstNew
      have hInvNew : StoreInv ck stNew := by
        refine ⟨?_, hsave.2.1, hsave.2.2⟩
        intro hx
        exfalso
        have : st.processed + batch.length < ck := hx
        omega
      obtain ⟨wr2, st2, hrun, hproc, hcount, hfailed, hInv2⟩ :=
        ih [] stNew hbrest hInvNew
      refine ⟨wr2, st2, hrun, ?_, ?_, ?_, hInv2⟩
      · rw [hproc, List.flatten_cons, List.length_append]
        have hpN : stNew.processed = st.processed + batch.length := rfl
        omega
      · rw [List.length_nil] at hcount
        rw [hcount, List.flatten_cons, List.length_append]
        have hdN : dataCount stNew.store
            = dataCount st.store + (wr ++ brs).length := hsave.1
        rw [List.length_append, hbrslen] at hdN
        omega
      · rw [hfailed, List.flatten_cons, List.filter_append]
        have hfN : stNew.failed = st.failed ++ batch.filter (idFails MR beh) := by
          rw [hstNew]
          simp only
          rw [hfail]
        rw [hfN, List.append_assoc]
    · rw [if_neg hmod]
      set stNew : SharedState :=
        ⟨st.processed + batch.length,
         st.failed ++ (brs.filter (fun p => isFailureResult p.2)).map Prod.fst,
         st.store⟩ with hstNew
      have hInvNew : StoreInv ck stNew := by
        refine ⟨?_, hInv.2.1, hInv.2.2⟩
        intro hx
        exact hInv.1 (by
          have : st.processed + batch.length < ck := hx
          omega)
      obtain ⟨wr2, st2, hrun, hproc, hcount, hfailed, hInv2⟩ :=
        ih (wr ++ brs) stNew hbrest hInvNew
      refine ⟨wr2, st2, hrun, ?_, ?_, ?_, hInv2⟩
      · rw [hproc, List.flatten_cons, List.length_append]
        have hpN : stNew.processed = st.processed + batch.length := rfl
        omega
      · rw [hcount, List.flatten_cons, List.length_append]
        have hsN : stNew.store = st.store := rfl
        rw [hsN, List.length_append, hbrslen]
        omega
      · rw [hfailed, List.flatten_cons, List.filter_append]
        have hfN : stNew.failed = st.failed ++ batch.filter (idFails MR beh) := by
          rw [hstNew]
          simp only
          rw [hfail]
        rw [hfN, List.append_assoc]

/-! ## Coordinator lemmas -/

theorem except_error_bind {ε α β : Type} (e : ε) (f : α → Except ε β) :
    (Except.error e >>= f : Except ε β) = Except.error e := rfl

theorem chunk_size_zero (W : Nat) : chunk_size 0 W = 0 := by
  rw [chunk_size, Nat.zero_div, Nat.zero_mod]
  simp

/-- With an empty identifier list the chunk computation raises
(`range(0, 0, 0)` is a `ValueError`), whatever the worker count. -/
theorem computeChunks_nil (W : Nat) :
    computeChunks W [] = .error "range() arg 3 must not be zero" := by
  rw [computeChunks]
  show (pyRange 0 (List.length ([] : List String)) (chunk_size
      (List.length ([] : List String)) W) >>= fun idxs =>
    Except.ok (idxs.map (fun i => (([] : List String).drop i).take
      (chunk_size (List.length ([] : List String)) W)))) = _
  rw [List.length_nil, chunk_size_zero, pyRange, if_pos rfl, except_error_bind]

theorem computeChunks_eq (W : Nat) (ids : List String)
    (h : ¬ chunk_size ids.length W = 0) :
    computeChunks W ids
      = .ok ((rangeList 0 ids.length (chunk_size ids.length W)).map
        (fun i => (ids.drop i).take (chunk_size ids.length W))) := by
  rw [computeChunks]
  show (pyRange 0 ids.length (chunk_size ids.length W) >>= fun idxs =>
    Except.ok (idxs.map (fun i => (ids.drop i).take
      (chunk_size ids.length W)))) = _
  rw [pyRange, if_neg h, except_ok_bind]

theorem computeChunks_spec (W : Nat) (ids : List String) (hW : 0 < W)
    (hne : ids ≠ []) :
    ∃ cks, computeChunks W ids = .ok cks ∧
      cks.flatten = ids ∧
      cks.length ≤ W ∧
      (∃ m r, cks.map List.length
        = List.replicate m (chunk_size ids.length W) ++ [r] ∧
        0 < r ∧ r ≤ chunk_size ids.length W) := by
  have hN : 0 < ids.length := List.length_pos.mpr hne
  have hcs : 0 < chunk_size ids.length W := chunk_size_pos ids.length W hN
  obtain ⟨m, r, hmr, hr0, hrc⟩ := chunks_shape (chunk_size ids.length W) hcs ids hne
  have hmap : ((rangeList 0 ids.length (chunk_size ids.length W)).map
      (fun i => (ids.drop i).take (chunk_size ids.length W))).map List.length
      = List.replicate m (chunk_size ids.length W) ++ [r] := by
    rw [List.map_map, Function.comp_def]
    exact hmr
  have hflat := chunks_flatten (chunk_size ids.length W) hcs ids
  refine ⟨_, computeChunks_eq W ids (by omega), hflat, ?_, m, r, hmap, hr0, hrc⟩
  -- chunk count = m + 1 ≤ W
  have hlen1 : ((rangeList 0 ids.length (chunk_size ids.length W)).map
      (fun i => (ids.drop i).take (chunk_size ids.length W))).length = m + 1 := by
    have := congrArg List.length hmap
    rw [List.length_map, List.length_append, List.length_replicate] at this
    simpa using this
  rw [hlen1]
  -- total length: N = m * cs + r
  have hsum : ids.length = m * chunk_size ids.length W + r := by
    have h1 := congrArg List.sum hmap
    rw [List.sum_append, List.sum_replicate, smul_eq_mul, List.sum_cons,
      List.sum_nil] at h1
    have h2 : ((rangeList 0 ids.length (chunk_size ids.length W)).map
        (fun i => (ids.drop i).take (chunk_size ids.length W))).flatten.length
        = ids.length := by rw [hflat]
    rw [List.length_flatten] at h2
    omega
  have hNle : ids.length ≤ W * chunk_size ids.length W :=
    length_le_mul_chunk_size ids.length W hW
  have hmlt : m < W := by
    apply Nat.lt_of_mul_lt_mul_left (a := chunk_size ids.length W)
    rw [Nat.mul_comm (chunk_size ids.length W) m,
      Nat.mul_comm (chunk_size ids.length W) W]
    omega
  omega

theorem worker_spec (MR BS ck : Nat) (beh : String → Nat → AttemptBeh)
    (hBS : 0 < BS) (hck : 0 < ck) (chunk : List String) (st : SharedState)
    (hInv : StoreInv ck st) :
    ∃ buf st2, worker MR BS ck beh chunk st = .ok (buf, st2) ∧
      st2.processed = st.processed + chunk.length ∧
      dataCount st2.store + buf.length = dataCount st.store + chunk.length ∧
      st2.failed = st.failed ++ chunk.filter (idFails MR beh) ∧
      StoreInv ck st2 := by
  have hbne : ∀ b ∈ (rangeList 0 chunk.length BS).map
      (fun i => (chunk.drop i).take BS), b ≠ [] := by
    intro b hbm
    obtain ⟨i, hi, rfl⟩ := List.mem_map.mp hbm
    have hib := rangeList_mem_bounds BS chunk.length 0 i hi
    intro hx
    have hlen := congrArg List.length hx
    rw [List.length_take, List.length_drop, List.length_nil] at hlen
    omega
  have hflat : ((rangeList 0 chunk.length BS).map
      (fun i => (chunk.drop i).take BS)).flatten = chunk :=
    chunks_flatten BS hBS chunk
  obtain ⟨wr2, st2, hrun, hproc, hcount, hfailed, hInv2⟩ :=
    workerLoop_spec MR ck beh hck
      ((rangeList 0 chunk.length BS).map (fun i => (chunk.drop i).take BS))
      [] st hbne hInv
  rw [hflat] at hproc hcount hfailed
  rw [List.length_nil] at hcount
  refine ⟨wr2, st2, ?_, hproc, by omega, hfailed, hInv2⟩
  rw [worker]
  show (pyRange 0 chunk.length BS >>= fun idxs =>
    workerLoop MR ck beh (idxs.map (fun i => (chunk.drop i).take BS)) [] st) = _
  rw [pyRange, if_neg (by omega), except_ok_bind]
  exact hrun

theorem runWorkers_cons (MR BS ck : Nat) (beh : String → Nat → AttemptBeh)
    (c : List String) (rest : List (List String)) (st : SharedState)
    (buf : List (String × PyResult)) (st1 : SharedState)
    (bufs : List (List (String × PyResult))) (st2 : SharedState)
    (hw : worker MR BS ck beh c st = .ok (buf, st1))
    (hr : runWorkers MR BS ck beh rest st1 = .ok (bufs, st2)) :
    runWorkers MR BS ck beh (c :: rest) st = .ok (buf :: bufs, st2) := by
  rw [runWorkers]
  simp only [hw, except_ok_bind, hr]

theorem runWorkers_spec (MR BS ck : Nat) (beh : String → Nat → AttemptBeh)
    (hBS : 0 < BS) (hck : 0 < ck) :
    ∀ chunks st, StoreInv ck st →
      ∃ bufs st2, runWorkers MR BS ck beh chunks st = .ok (bufs, st2) ∧
        st2.processed = st.processed + chunks.flatten.length ∧
        dataCount st2.store + bufs.flatten.length
          = dataCount st.store + chunks.flatten.length ∧
        st2.failed = st.failed ++ chunks.flatten.filter (idFails MR beh) ∧
        StoreInv ck st2 := by
  intro chunks
  induction chunks with
  | nil =>
    intro st hInv
    exact ⟨[], st, rfl, by simp, by simp, by simp, hInv⟩
  | cons c rest ih =>
    intro st hInv
    obtain ⟨buf, st1, hw, hp1, hc1, hf1, hI1⟩ :=
      worker_spec MR BS ck beh hBS hck c st hInv
    obtain ⟨bufs, st2, hr, hp2, hc2, hf2, hI2⟩ := ih st1 hI1
    refine ⟨buf :: bufs, st2, runWorkers_cons MR BS ck beh c rest st buf st1
      bufs st2 hw hr, ?_, ?_, ?_, hI2⟩
    · rw [hp2, hp1, List.flatten_cons, List.length_append]
      omega
    · rw [List.flatten_cons, List.flatten_cons, List.length_append,
        List.length_append]
      omega
    · rw [hf2, hf1, List.flatten_cons, List.filter_append, List.append_assoc]

/-- Unfolding of `scrape_all_ids` once the chunking and the worker pool have
run. -/
theorem scrape_all_ids_eq (MR BS W ck : Nat) (beh : String → Nat → AttemptBeh)
    (ids : List String) (store0 : List Row) (cks : List (List String))
    (bufs : List (List (String × PyResult))) (st2 : SharedState)
    (hc : computeChunks W ids = .ok cks)
    (hr : runWorkers MR BS ck beh cks ⟨0, [], store0⟩ = .ok (bufs, st2)) :
    scrape_all_ids MR BS W ck beh ids store0 = .ok
      ⟨st2.processed,
       if bufs.flatten.isEmpty then st2.store
       else save_checkpoint st2.store bufs.flatten (decide (st2.processed < ck)),
       if st2.failed.isEmpty then none else some (save_failed_ids st2.failed)⟩ := by
  rw [scrape_all_ids]
  simp only [hc, except_ok_bind, hr]

/-- Master specification of a full run (sequential worker schedule) started
with an empty results store. -/
theorem scrape_all_ids_spec (MR BS W ck : Nat) (beh : String → Nat → AttemptBeh)
    (ids : List String) (hW : 0 < W) (hBS : 0 < BS) (hck : 0 < ck)
    (hne : ids ≠ []) :
    ∃ out, scrape_all_ids MR BS W ck beh ids [] = .ok out ∧
      out.processed = ids.length ∧
      dataCount out.store = ids.length ∧
      headerCount out.store ≤ 1 ∧
      (∀ r ∈ out.store.drop 1, r ≠ Row.header) ∧
      out.failedStore = (if (ids.filter (idFails MR beh)).isEmpty then none
        else some (ids.filter (idFails MR beh))) := by
  obtain ⟨cks, hcks, hflat, hlen, -⟩ := computeChunks_spec W ids hW hne
  have hInv0 : StoreInv ck ⟨0, [], []⟩ := by
    refine ⟨fun _ => rfl, ?_, ?_⟩
    · intro r hr
      simp at hr
    · rw [headerCount]
      simp
  obtain ⟨bufs, st2, hrw, hproc, hcount, hfailed, hInv2⟩ :=
    runWorkers_spec MR BS ck beh hBS hck cks ⟨0, [], []⟩ hInv0
  rw [hflat] at hproc hcount hfailed
  rw [List.nil_append] at hfailed
  have hproc2 : st2.processed = ids.length := by
    have h0 : ({ processed := 0, failed := [], store := [] } : SharedState).processed = 0 := rfl
    omega
  have hcount2 : dataCount st2.store + bufs.flatten.length = ids.length := by
    have hnil : dataCount (⟨0, [], []⟩ : SharedState).store = 0 := rfl
    omega
  refine ⟨_, scrape_all_ids_eq MR BS W ck beh ids [] cks bufs st2 hcks hrw,
    hproc2, ?_, ?_, ?_, ?_⟩
  · -- data count
    show dataCount (if bufs.flatten.isEmpty then st2.store
      else save_checkpoint st2.store bufs.flatten
        (decide (st2.processed < ck))) = ids.length
    by_cases hemp : bufs.flatten.isEmpty
    · rw [if_pos hemp]
      have := List.isEmpty_iff.mp hemp
      rw [this] at hcount2
      simp only [List.length_nil] at hcount2
      omega
    · rw [if_neg hemp]
      have hsv := save_checkpoint_inv ck st2 hInv2 bufs.flatten
        (decide (st2.processed < ck))
        (fun hb => hInv2.1 (of_decide_eq_true hb))
      rw [hsv.1]
      omega
  · -- header count
    show headerCount (if bufs.flatten.isEmpty then st2.store
      else save_checkpoint st2.store bufs.flatten
        (decide (st2.processed < ck))) ≤ 1
    by_cases hemp : bufs.flatten.isEmpty
    · rw [if_pos hemp]
      exact hInv2.2.2
    · rw [if_neg hemp]
      exact (save_checkpoint_inv ck st2 hInv2 bufs.flatten
        (decide (st2.processed < ck))
        (fun hb => hInv2.1 (of_decide_eq_true hb))).2.2
  · -- header only on the first line
    show ∀ r ∈ (if bufs.flatten.isEmpty then st2.store
      else save_checkpoint st2.store bufs.flatten
        (decide (st2.processed < ck))).drop 1, r ≠ Row.header
    by_cases hemp : bufs.flatten.isEmpty
    · rw [if_pos hemp]
      exact hInv2.2.1
    · rw [if_neg hemp]
      exact (save_checkpoint_inv ck st2 hInv2 bufs.flatten
        (decide (st2.processed < ck))
        (fun hb => hInv2.1 (of_decide_eq_true hb))).2.1
  · -- failure store
    show (if st2.failed.isEmpty then none else some (save_failed_ids st2.failed))
      = (if (ids.filter (idFails MR beh)).isEmpty then none
        else some (ids.filter (idFails MR beh)))
    rw [hfailed, save_failed_ids]

/-- With an empty identifier list, `scrape_all_ids` raises the `ValueError`
coming out of the chunk computation. -/
theorem scrape_all_ids_nil (MR BS W ck : Nat) (beh : String → Nat → AttemptBeh)
    (store0 : List Row) :
    scrape_all_ids MR BS W ck beh [] store0
      = .error "range() arg 3 must not be zero" := by
  rw [scrape_all_ids]
  simp only [computeChunks_nil, except_error_bind]

/-! ## Concrete fixtures used in the concrete evaluations -/

/-- A response body whose extraction trivially succeeds. -/
def htmlOk0 : Html := ⟨some "x", none⟩

/-- A fetch behaviour that always succeeds with status 200. -/
def behOk : String → Nat → AttemptBeh := fun _ _ => .resp 200 htmlOk0

/-- The outcome value `behOk` always produces. -/
def resOk : PyResult := .dict "x" PyHist.notFound

theorem scrape_behOk (MR : Nat) (id : String) :
    scrape_id_async MR id (behOk id) 0 = Except.ok (id, resOk) :=
  scrape_extract_ok id rfl (by decide) rfl

theorem scrapeResult_behOk (MR : Nat) (id : String) :
    scrapeResult MR id (behOk id) 0 = resOk := by
  rw [scrapeResult, scrape_behOk]

theorem idFails_behOk (MR : Nat) (id : String) : idFails MR behOk id = false := by
  rw [idFails, scrapeResult_behOk]
  rfl

theorem processBatch_behOk (MR : Nat) (b : List String) :
    processBatch MR behOk b = .ok (b.map (fun id => (id, resOk))) := by
  rw [processBatch_eq]
  simp only [scrapeResult_behOk]

/-! ## Concrete evaluation of one full run: 7 identifiers, BATCH_SIZE 2,
CHECKPOINT_SIZE 3, NUM_WORKERS 5, all fetches succeeding, sequential
schedule.  The shared count passes 2, 4, 6, 7: the only mid-run flush
happens at 6, where `processed_count.value == checkpoint_size` is false, so
it appends; the final drain sees `7 < 3` false and appends as well.  No
header is ever written and the pre-existing store contents survive. -/

def ids7 : List String := ["1", "2", "3", "4", "5", "6", "7"]

def junkRow : Row := Row.data "junk" (PyResult.str "old")

theorem rangeList_0_7_2 : rangeList 0 7 2 = [0, 2, 4, 6] := by
  rw [rangeList_step (by omega), rangeList_step (by omega),
    rangeList_step (by omega), rangeList_step (by omega),
    rangeList_stop (by omega)]

theorem computeChunks_ids7 :
    computeChunks 5 ids7 = .ok [["1", "2"], ["3", "4"], ["5", "6"], ["7"]] := by
  have hc := computeChunks_eq 5 ids7 (by decide)
  rw [show rangeList 0 (List.length ids7) (chunk_size (List.length ids7) 5)
    = [0, 2, 4, 6] from rangeList_0_7_2] at hc
  exact hc.trans (by rfl)

theorem worker_eq_workerLoop (MR BS ck : Nat) (beh : String → Nat → AttemptBeh)
    (chunk : List String) (st : SharedState) (hBS : ¬ BS = 0) :
    worker MR BS ck beh chunk st
      = workerLoop MR ck beh
          ((rangeList 0 chunk.length BS).map (fun i => (chunk.drop i).take BS))
          [] st := by
  rw [worker]
  show (pyRange 0 chunk.length BS >>= fun idxs =>
    workerLoop MR ck beh (idxs.map (fun i => (chunk.drop i).take BS)) [] st) = _
  rw [pyRange, if_neg hBS, except_ok_bind]

theorem rangeList_0_2_2 : rangeList 0 2 2 = [0] := by
  rw [rangeList_step (by omega), rangeList_stop (by omega)]

theorem rangeList_0_1_2 : rangeList 0 1 2 = [0] := by
  rw [rangeList_step (by omega), rangeList_stop (by omega)]

/-- Evaluation of one worker of the scenario on a two-identifier chunk. -/
theorem worker_eval_pair (a b : String) (st : SharedState) :
    worker 3 2 3 behOk [a, b] st
      = workerLoop 3 3 behOk [[a, b]] [] st := by
  rw [worker_eq_workerLoop 3 2 3 behOk [a, b] st (by decide)]
  rw [show rangeList 0 (List.length [a, b]) 2 = [0] from rangeList_0_2_2]
  rfl

theorem worker_eval_single (a : String) (st : SharedState) :
    worker 3 2 3 behOk [a] st = workerLoop 3 3 behOk [[a]] [] st := by
  rw [worker_eq_workerLoop 3 2 3 behOk [a] st (by decide)]
  rw [show rangeList 0 (List.length [a]) 2 = [0] from rangeList_0_1_2]
  rfl

theorem workerLoop_w1 :
    workerLoop 3 3 behOk [["1", "2"]] [] ⟨0, [], [junkRow]⟩
      = .ok ([("1", resOk), ("2", resOk)], ⟨2, [], [junkRow]⟩) := by
  rw [workerLoop_cons 3 3 behOk ["1", "2"] [] [] ⟨0, [], [junkRow]⟩
    (["1", "2"].map (fun id => (id, resOk))) (processBatch_behOk 3 ["1", "2"])]
  rw [if_neg (by decide)]
  rfl

theorem workerLoop_w2 :
    workerLoop 3 3 behOk [["3", "4"]] [] ⟨2, [], [junkRow]⟩
      = .ok ([("3", resOk), ("4", resOk)], ⟨4, [], [junkRow]⟩) := by
  rw [workerLoop_cons 3 3 behOk ["3", "4"] [] [] ⟨2, [], [junkRow]⟩
    (["3", "4"].map (fun id => (id, resOk))) (processBatch_behOk 3 ["3", "4"])]
  rw [if_neg (by decide)]
  rfl

theorem workerLoop_w3 :
    workerLoop 3 3 behOk [["5", "6"]] [] ⟨4, [], [junkRow]⟩
      = .ok ([], ⟨6, [],
          [junkRow, Row.data "5" resOk, Row.data "6" resOk]⟩) := by
  rw [workerLoop_cons 3 3 behOk ["5", "6"] [] [] ⟨4, [], [junkRow]⟩
    (["5", "6"].map (fun id => (id, resOk))) (processBatch_behOk 3 ["5", "6"])]
  rw [if_pos (by decide)]
  rfl

theorem workerLoop_w4 :
    workerLoop 3 3 behOk [["7"]] []
        ⟨6, [], [junkRow, Row.data "5" resOk, Row.data "6" resOk]⟩
      = .ok ([("7", resOk)],
          ⟨7, [], [junkRow, Row.data "5" resOk, Row.data "6" resOk]⟩) := by
  rw [workerLoop_cons 3 3 behOk ["7"] [] []
    ⟨6, [], [junkRow, Row.data "5" resOk, Row.data "6" resOk]⟩
    (["7"].map (fun id => (id, resOk))) (processBatch_behOk 3 ["7"])]
  rw [if_neg (by decide)]
  rfl

/-- The sequential run of the four workers of the scenario. -/
theorem runWorkers_ids7 :
    runWorkers 3 2 3 behOk [["1", "2"], ["3", "4"], ["5", "6"], ["7"]]
        ⟨0, [], [junkRow]⟩
      = .ok ([[("1", resOk), ("2", resOk)], [("3", resOk), ("4", resOk)], [],
              [("7", resOk)]],
          ⟨7, [], [junkRow, Row.data "5" resOk, Row.data "6" resOk]⟩) := by
  apply runWorkers_cons 3 2 3 behOk _ _ _ _ _ _ _
    ((worker_eval_pair "1" "2" _).trans workerLoop_w1)
  apply runWorkers_cons 3 2 3 behOk _ _ _ _ _ _ _
    ((worker_eval_pair "3" "4" _).trans workerLoop_w2)
  apply runWorkers_cons 3 2 3 behOk _ _ _ _ _ _ _
    ((worker_eval_pair "5" "6" _).trans workerLoop_w3)
  apply runWorkers_cons 3 2 3 behOk _ _ _ _ _ _ _
    ((worker_eval_single "7" _).trans workerLoop_w4)
  rfl

/-- Full evaluation of the scenario run: seven data rows are appended after
the pre-existing junk row, and no header row is ever written. -/
theorem scrape_all_ids_ids7_eval :
    scrape_all_ids 3 2 5 3 behOk ids7 [junkRow]
      = .ok ⟨7,
          [junkRow, Row.data "5" resOk, Row.data "6" resOk,
           Row.data "1" resOk, Row.data "2" resOk, Row.data "3" resOk,
           Row.data "4" resOk, Row.data "7" resOk], none⟩ := by
  rw [scrape_all_ids_eq 3 2 5 3 behOk ids7 [junkRow]
    [["1", "2"], ["3", "4"], ["5", "6"], ["7"]]
    [[("1", resOk), ("2", resOk)], [("3", resOk), ("4", resOk)], [],
     [("7", resOk)]]
    ⟨7, [], [junkRow, Row.data "5" resOk, Row.data "6" resOk]⟩
    computeChunks_ids7 runWorkers_ids7]
  rfl

/-! ## Further fixtures for witnesses -/

/-- A fetch behaviour that always raises. -/
def behFail : Nat → AttemptBeh := fun _ => .err "boom"

/-- A fetch behaviour that fails once, then succeeds. -/
def behSucc2 : Nat → AttemptBeh :=
  fun i => if i = 0 then .err "boom" else .resp 200 htmlOk0

/-- A fetch behaviour under which identifier "A" always raises and every
other identifier succeeds. -/
def behAB : String → Nat → AttemptBeh :=
  fun id _ => if id = "A" then .err "boom" else .resp 200 htmlOk0

/-- A fetch behaviour that always answers with status 500. -/
def beh500 : Nat → AttemptBeh := fun _ => .resp 500 htmlOk0

def ids3 : List String := ["R001", "R002", "R003"]

/-! ## The claims -/

/-- C5: total-exception safety of the fetch: for every identifier, every
response behaviour (any status code, any body, any transport or extraction
exception) and every starting retry count, `scrape_id_async` returns
normally with a pair `(identifier, outcome)` — it is `Except.ok`, never
`Except.error` — so every failure path is a value inside the outcome. -/
theorem c5_total_exception_safety (MR : Nat) (id : String)
    (beh : Nat → AttemptBeh) (rc : Nat) :
    ∃ r : PyResult, scrape_id_async MR id beh rc = Except.ok (id, r) := by
  obtain ⟨r, hr, -⟩ := scrape_id_async_spec MR id beh rc
  exact ⟨r, hr⟩

/-- C2: retry-count law.  When every attempt fails (bad status, transport
exception, or extraction exception — all three count against the same
budget), `scrape_id_async` makes exactly `MAX_RETRIES` attempts starting
from `retry_count = 0` and returns a failure string; when the first
`k - 1 ≤ MAX_RETRIES - 1` attempts fail and attempt `k` succeeds, exactly
`k` attempts are made and the outcome is the success dict. -/
theorem c2_retry_count_law (MR : Nat) (id : String) (beh : Nat → AttemptBeh)
    (hMR : 1 ≤ MR) :
    ((∀ i, attemptFails (beh i) = true) →
      attemptCount MR beh 0 = MR ∧
      ∃ s, scrape_id_async MR id beh 0 = Except.ok (id, PyResult.str s)) ∧
    (∀ k, 1 ≤ k → k ≤ MR →
      (∀ i, i < k - 1 → attemptFails (beh i) = true) →
      attemptFails (beh (k - 1)) = false →
      attemptCount MR beh 0 = k ∧
      ∃ td ph, scrape_id_async MR id beh 0
        = Except.ok (id, PyResult.dict td ph)) := by
  constructor
  · intro hfail
    obtain ⟨hc, hs⟩ := allFail_spec MR id beh hfail 0
    exact ⟨by omega, hs⟩
  · intro k hk1 hkMR hfi hsucc
    obtain ⟨hc, hs⟩ := firstSuccess_spec MR id beh 0 (k - 1) (by omega)
      (by omega) (fun i _ h2 => hfi i h2) hsucc
    exact ⟨by omega, hs⟩

theorem c2_retry_count_law_witness :
    ((attemptCount 3 behFail 0 = 3 ∧
      ∃ s, scrape_id_async 3 "A" behFail 0 = Except.ok ("A", PyResult.str s)) ∧
     (attemptCount 3 behSucc2 0 = 2 ∧
      ∃ td ph, scrape_id_async 3 "A" behSucc2 0
        = Except.ok ("A", PyResult.dict td ph))) :=
  ⟨(c2_retry_count_law 3 "A" behFail (by decide)).1 (fun _ => rfl),
   (c2_retry_count_law 3 "A" behSucc2 (by decide)).2 2 (by decide) (by decide)
      (fun i hi => by
        have h0 : i = 0 := by omega
        rw [h0]
        rfl)
      rfl⟩

/-- C6 as stated is false: one identifier whose fetch always returns status
500 under `MAX_RETRIES = 3` ends in the failure string
`"Failed after 3 attempts. Status: 500"`, which does not contain the text
`"exhausted after 3 attempts, status=500"` the claim requires. -/
theorem c6_failure_message_counterexample :
    scrape_id_async MAX_RETRIES "A" beh500 0
      = Except.ok ("A", PyResult.str "Failed after 3 attempts. Status: 500") ∧
    strContains "Failed after 3 attempts. Status: 500"
      "exhausted after 3 attempts, status=500" = false := by
  constructor
  · exact ((scrape_status_retry "A" rfl (by decide) (by decide)).trans
      ((scrape_status_retry "A" rfl (by decide) (by decide)).trans
        ((scrape_status_stop "A" rfl (by decide) (by decide)).trans
          (by rfl))))
  · decide

/-- C6, amended: when the fetch always returns status 500 and
`MAX_RETRIES = 3`, the final outcome is the failure string
`"Failed after 3 attempts. Status: 500"` — the exhausted-retries message has
the form `"Failed after MAX_RETRIES attempts. Status: <code>"`, so it
contains the attempt count and the status code, with this phrasing rather
than the one quoted by the claim. -/
theorem c6_failure_message_amended (id : String) (beh : Nat → AttemptBeh)
    (hbeh : ∀ i, ∃ html, beh i = AttemptBeh.resp 500 html) :
    scrape_id_async MAX_RETRIES id beh 0
      = Except.ok (id, PyResult.str "Failed after 3 attempts. Status: 500") ∧
    strContains "Failed after 3 attempts. Status: 500" "after 3 attempts"
      = true ∧
    strContains "Failed after 3 attempts. Status: 500" "Status: 500"
      = true := by
  obtain ⟨h0, hb0⟩ := hbeh 0
  obtain ⟨h1, hb1⟩ := hbeh 1
  obtain ⟨h2, hb2⟩ := hbeh 2
  refine ⟨?_, by decide, by decide⟩
  exact ((scrape_status_retry id hb0 (by decide) (by decide)).trans
    ((scrape_status_retry id hb1 (by decide) (by decide)).trans
      ((scrape_status_stop id hb2 (by decide) (by decide)).trans (by rfl))))

theorem c6_failure_message_amended_witness :
    scrape_id_async MAX_RETRIES "A" beh500 0
      = Except.ok ("A", PyResult.str "Failed after 3 attempts. Status: 500") ∧
    strContains "Failed after 3 attempts. Status: 500" "after 3 attempts"
      = true ∧
    strContains "Failed after 3 attempts. Status: 500" "Status: 500"
      = true :=
  c6_failure_message_amended "A" beh500 (fun _ => ⟨htmlOk0, rfl⟩)

/-- C7: extractor sentinel behaviour.  For every document in which the
total-due cell is absent and the payment table holds a header row plus one
five-cell data row, the fetch returns a `Success` outcome whose total-due
text is the `"Could not find total due"` sentinel and whose payment history
holds exactly one record; and a document without the payment table never
raises — extraction returns `Success` with the table-absent sentinel. -/
theorem c7_extractor_sentinel (MR : Nat) (id : String) :
    (∀ (hdr : List Cell) (c0 c1 c2 c3 c4 : Cell),
      ∃ rec : PaymentRecord,
        scrape_id_async MR id
          (fun _ => .resp 200 ⟨none, some [hdr, [c0, c1, c2, c3, c4]]⟩) 0
        = Except.ok (id, PyResult.dict "Could not find total due"
            (PyHist.rows [rec]))) ∧
    (∀ h : Html, h.paymentTable = none →
      ∃ td, extract h = Except.ok (td, PyHist.notFound)) := by
  constructor
  · intro hdr c0 c1 c2 c3 c4
    refine ⟨⟨pyStrip c0.text, pyStrip c1.text, pyStrip c2.text,
      pyStrip c3.text,
      match c4.link with
      | some t => pyStrip t
      | none => pyStrip c4.text⟩, ?_⟩
    exact scrape_extract_ok id rfl (by decide) rfl
  · intro h hpt
    refine ⟨(match h.totalDueCell with
      | some t => pyStrip t
      | none => "Could not find total due"), ?_⟩
    rw [extract, hpt]

theorem c7_extractor_sentinel_witness :
    (∃ rec : PaymentRecord,
      scrape_id_async 3 "A"
        (fun _ => .resp 200 ⟨none, some [[Cell.mk "h" none],
          [Cell.mk "a" none, Cell.mk "b" none, Cell.mk "c" none,
           Cell.mk "d" none, Cell.mk "e" (some "R1")]]⟩) 0
      = Except.ok ("A", PyResult.dict "Could not find total due"
          (PyHist.rows [rec]))) ∧
    (∃ td, extract ⟨some "x", none⟩ = Except.ok (td, PyHist.notFound)) :=
  ⟨(c7_extractor_sentinel 3 "A").1 [Cell.mk "h" none] (Cell.mk "a" none)
    (Cell.mk "b" none) (Cell.mk "c" none) (Cell.mk "d" none)
    (Cell.mk "e" (some "R1")),
   (c7_extractor_sentinel 3 "A").2 ⟨some "x", none⟩ rfl⟩

/-- C10: implicit outcome-shape invariant.  Every outcome `scrape_id_async`
returns is either the success dict or a failure string beginning with
`"Failed after"` or `"Error scraping"`, and the worker's prefix test
(`isFailureResult`) holds exactly on the failure strings, so the
`FailedIdentifierSet` classification is sound and complete. -/
theorem c10_outcome_shape (MR : Nat) (id : String) (beh : Nat → AttemptBeh)
    (rc : Nat) (p : String × PyResult)
    (h : scrape_id_async MR id beh rc = Except.ok p) :
    ((∃ td ph, p.2 = PyResult.dict td ph) ∨
      (∃ s, p.2 = PyResult.str s ∧
        (pyStartsWith s "Failed after" = true ∨
         pyStartsWith s "Error scraping" = true))) ∧
    (isFailureResult p.2 = true ↔ ∃ s, p.2 = PyResult.str s) := by
  obtain ⟨r, hr, hshape⟩ := scrape_id_async_spec MR id beh rc
  have h2 := h.symm.trans hr
  have hpr : p = (id, r) := by injection h2
  subst hpr
  constructor
  · rcases hshape with ⟨td, ph, hd⟩ | ⟨status, hs⟩ | ⟨e, hs⟩
    · exact Or.inl ⟨td, ph, hd⟩
    · exact Or.inr ⟨_, hs, Or.inl (failedMsg_startsWith_full MR status)⟩
    · exact Or.inr ⟨_, hs, Or.inr (errorMsg_startsWith_full MR id e)⟩
  · exact resultShape_classification hshape

theorem c10_outcome_shape_witness :
    ((∃ td ph, (("A", resOk) : String × PyResult).2 = PyResult.dict td ph) ∨
      (∃ s, (("A", resOk) : String × PyResult).2 = PyResult.str s ∧
        (pyStartsWith s "Failed after" = true ∨
         pyStartsWith s "Error scraping" = true))) ∧
    (isFailureResult (("A", resOk) : String × PyResult).2 = true ↔
      ∃ s, (("A", resOk) : String × PyResult).2 = PyResult.str s) :=
  c10_outcome_shape 3 "A" (behOk "A") 0 ("A", resOk) (scrape_behOk 3 "A")

/-- C9: in-batch ordering.  The batch gather (`asyncio.gather` in submission
order, part of the embedded semantics) collects the `(identifier, outcome)`
pairs in exactly the order the identifiers appear in the chunk slice: the
list appended to the worker's buffer maps back to the batch itself. -/
theorem c9_batch_order (MR : Nat) (beh : String → Nat → AttemptBeh)
    (batch : List String) :
    ∃ l, processBatch MR beh batch = Except.ok l ∧
      l = batch.map (fun id => (id, scrapeResult MR id (beh id) 0)) ∧
      l.map Prod.fst = batch := by
  refine ⟨_, processBatch_eq MR beh batch, rfl, ?_⟩
  rw [List.map_map]
  have hco : (Prod.fst ∘ fun id : String => (id, scrapeResult MR id (beh id) 0))
      = fun id : String => id := rfl
  rw [hco]
  simp

/-- C8: missing-or-empty-input handling.  When the identifier list file is
absent (`FileNotFoundError`) or present but empty (in which case the chunk
computation raises `ValueError`, caught by the generic handler),
`run_scraper` reports the condition and returns 0, and no exception escapes
the entry point — the model returns a plain value in both cases. -/
theorem c8_missing_or_empty_input (MR BS W ck : Nat)
    (beh : String → Nat → AttemptBeh) (store0 : List Row) :
    run_scraper MR BS W ck beh none store0 = 0 ∧
    run_scraper MR BS W ck beh (some []) store0 = 0 := by
  constructor
  · rfl
  · show (match scrape_all_ids MR BS W ck beh [] store0 with
      | .error _ => (0 : Nat)
      | .ok out => out.processed) = 0
    rw [scrape_all_ids_nil]

/-- C3 as stated is false at the empty identifier list: the coordinator's
chunk size is then 0 and Python's `range(0, 0, 0)` raises `ValueError`
instead of producing any chunks. -/
theorem c3_chunking_counterexample :
    computeChunks NUM_WORKERS [] = .error "range() arg 3 must not be zero" ∧
    ¬ ∃ cks, computeChunks NUM_WORKERS [] = .ok cks := by
  refine ⟨rfl, ?_⟩
  rintro ⟨cks, hcks⟩
  rw [show computeChunks NUM_WORKERS []
    = .error "range() arg 3 must not be zero" from rfl] at hcks
  cases hcks

/-- C3, amended to non-empty identifier lists: the chunk size is
`ceil(N / W)`, the contiguous slices cover the list exactly (their
concatenation in order is the input, so every identifier is in exactly one
chunk), there are at most `W` chunks, and all chunks have the chunk size
except the last, which is non-empty and no larger. -/
theorem c3_chunking_amended (W : Nat) (ids : List String) (hW : 0 < W)
    (hne : ids ≠ []) :
    chunk_size ids.length W = (ids.length + W - 1) / W ∧
    ∃ cks, computeChunks W ids = .ok cks ∧
      cks.flatten = ids ∧
      cks.length ≤ W ∧
      ∃ m r, cks.map List.length
          = List.replicate m (chunk_size ids.length W) ++ [r] ∧
        0 < r ∧ r ≤ chunk_size ids.length W :=
  ⟨chunk_size_eq_ceil ids.length W hW, computeChunks_spec W ids hW hne⟩

theorem c3_chunking_amended_witness :
    chunk_size (List.length ["a", "b", "c"]) 2
      = (List.length ["a", "b", "c"] + 2 - 1) / 2 ∧
    ∃ cks, computeChunks 2 ["a", "b", "c"] = .ok cks ∧
      cks.flatten = ["a", "b", "c"] ∧
      cks.length ≤ 2 ∧
      ∃ m r, cks.map List.length
          = List.replicate m (chunk_size (List.length ["a", "b", "c"]) 2) ++ [r] ∧
        0 < r ∧ r ≤ chunk_size (List.length ["a", "b", "c"]) 2 :=
  c3_chunking_amended 2 ["a", "b", "c"] (by decide) (by decide)

/-- C4: failure-store law (sequential schedule, run started with an empty
store).  The failure store is written iff some identifier's final outcome is
classified as a failure, and when written it contains exactly the
identifiers of `ids` whose final outcome is a failure. -/
theorem c4_failure_store_law (MR BS ck : Nat) (beh : String → Nat → AttemptBeh)
    (ids : List String) (hBS : 0 < BS) (hck : 0 < ck) (hne : ids ≠ []) :
    ∃ out, scrape_all_ids MR BS NUM_WORKERS ck beh ids [] = .ok out ∧
      (out.failedStore = none ↔ ∀ id ∈ ids, idFails MR beh id = false) ∧
      (∀ fs, out.failedStore = some fs →
        ∀ id, id ∈ fs ↔ id ∈ ids ∧ idFails MR beh id = true) := by
  obtain ⟨out, h1, -, -, -, -, h6⟩ :=
    scrape_all_ids_spec MR BS NUM_WORKERS ck beh ids (by decide) hBS hck hne
  refine ⟨out, h1, ?_, ?_⟩
  · rw [h6]
    by_cases hemp : (ids.filter (idFails MR beh)).isEmpty
    · rw [if_pos hemp]
      constructor
      · intro _ id hid
        have hnil := List.isEmpty_iff.mp hemp
        have hni := List.filter_eq_nil_iff.mp hnil id hid
        simpa using hni
      · intro _
        rfl
    · rw [if_neg hemp]
      constructor
      · intro hx
        cases hx
      · intro hall
        exfalso
        have hLne : ids.filter (idFails MR beh) ≠ [] := by
          intro hx
          rw [hx] at hemp
          exact hemp rfl
        obtain ⟨id, hidL⟩ := List.exists_mem_of_ne_nil _ hLne
        have hmem := List.mem_filter.mp hidL
        have hfid := hall id hmem.1
        rw [hmem.2] at hfid
        cases hfid
  · intro fs hfs
    rw [h6] at hfs
    by_cases hemp : (ids.filter (idFails MR beh)).isEmpty
    · rw [if_pos hemp] at hfs
      cases hfs
    · rw [if_neg hemp] at hfs
      have hfs2 : ids.filter (idFails MR beh) = fs := by injection hfs
      subst hfs2
      intro id
      exact List.mem_filter

theorem c4_failure_store_law_witness :
    ∃ out, scrape_all_ids 3 3 NUM_WORKERS 100 behAB ["A", "B"] [] = .ok out ∧
      (out.failedStore = none ↔ ∀ id ∈ ["A", "B"], idFails 3 behAB id = false) ∧
      (∀ fs, out.failedStore = some fs →
        ∀ id, id ∈ fs ↔ id ∈ ["A", "B"] ∧ idFails 3 behAB id = true) :=
  c4_failure_store_law 3 3 100 behAB ["A", "B"] (by decide) (by decide)
    (by decide)

/-- C1 as stated is false: with 7 identifiers whose fetches all succeed,
`BATCH_SIZE = 2`, `CHECKPOINT_SIZE = 3` and the sequential schedule, the
shared count passes 2, 4, 6, 7: no flush ever happens with
`processed_count.value == CHECKPOINT_SIZE`, so the header is never written
(count 0, not 1) and the pre-existing store row is never truncated (8 rows
instead of 7). -/
theorem c1_checkpoint_counterexample :
    (scrape_all_ids MAX_RETRIES 2 NUM_WORKERS 3 behOk ids7 [junkRow]).map
      (fun out => (headerCount out.store, dataCount out.store, out.processed))
      = Except.ok (0, 8, 7) := by
  rw [show scrape_all_ids MAX_RETRIES 2 NUM_WORKERS 3 behOk ids7 [junkRow]
    = Except.ok ⟨7, [junkRow, Row.data "5" resOk, Row.data "6" resOk,
        Row.data "1" resOk, Row.data "2" resOk, Row.data "3" resOk,
        Row.data "4" resOk, Row.data "7" resOk], none⟩
    from scrape_all_ids_ids7_eval]
  rfl

/-- C1, amended.  For every identifier list whose fetches all succeed and a
run started with an empty results store (sequential schedule, positive
`BATCH_SIZE` and `CHECKPOINT_SIZE`): the store ends with exactly `N` data
rows and no failure store is written; the header appears at most once —
not always exactly once — and only ever as the first line.  (A header is
written only when some flush lands exactly on `CHECKPOINT_SIZE`, or the run
drains with fewer than `CHECKPOINT_SIZE` processed.) -/
theorem c1_checkpoint_amended (MR BS ck : Nat) (beh : String → Nat → AttemptBeh)
    (ids : List String) (hBS : 0 < BS) (hck : 0 < ck) (hne : ids ≠ [])
    (hallOk : ∀ id ∈ ids, idFails MR beh id = false) :
    ∃ out, scrape_all_ids MR BS NUM_WORKERS ck beh ids [] = .ok out ∧
      out.processed = ids.length ∧
      dataCount out.store = ids.length ∧
      headerCount out.store ≤ 1 ∧
      (∀ r ∈ out.store.drop 1, r ≠ Row.header) ∧
      out.failedStore = none := by
  obtain ⟨out, h1, h2, h3, h4, h5, h6⟩ :=
    scrape_all_ids_spec MR BS NUM_WORKERS ck beh ids (by decide) hBS hck hne
  refine ⟨out, h1, h2, h3, h4, h5, ?_⟩
  have hnil : ids.filter (idFails MR beh) = [] :=
    List.filter_eq_nil_iff.mpr (fun a ha => by simp [hallOk a ha])
  rw [h6, hnil]
  rfl

theorem c1_checkpoint_amended_witness :
    ∃ out, scrape_all_ids 3 3 NUM_WORKERS 100 behOk ids3 [] = .ok out ∧
      out.processed = ids3.length ∧
      dataCount out.store = ids3.length ∧
      headerCount out.store ≤ 1 ∧
      (∀ r ∈ out.store.drop 1, r ≠ Row.header) ∧
      out.failedStore = none :=
  c1_checkpoint_amended 3 3 100 behOk ids3 (by decide) (by decide) (by decide)
    (fun id _ => idFails_behOk 3 id)

end TaxScraper
